import Mathlib

/-!
Verification of the go-micro service composition and lifecycle layer.

Shallow embedding of the relevant parts of the repository:
* `service.Start` / `service.Stop` / `service.Run` (lifecycle controller),
* the options aggregator (`newOptions` and the cross-cutting option mutators),
* `service.Init` with its one-time block,
* `WrapClient` and the fixed client/server middleware wrappers
  (`FromService`, `HandlerStats`, `TraceHandler`).

Go `error` values are modelled as `Option Err` (`none` = nil).  Side effects
(hook execution, delegate calls, stats records, span lifecycles) are made
observable as explicit event lists returned alongside the Go return value.
-/

namespace GoMicro

/-- Go error payloads. -/
abbrev Err := String

/-- A Go `error` result: `none` is Go's `nil`. -/
abbrev GoErr := Option Err

/-- Observable events of `service.Start` / `service.Stop`.  Running the i-th
hook of a phase emits the corresponding event; invoking the delegate server's
`Start`/`Stop` emits `serverStart`/`serverStop`. -/
inductive LifeEvent
  | beforeStart (i : Nat)
  | serverStart
  | afterStart (i : Nat)
  | beforeStop (i : Nat)
  | serverStop
  | afterStop (i : Nat)
  deriving DecidableEq, Repr

/-- Embedding of the Go fail-fast hook loop
`for _, fn := range hooks { if err := fn(); err != nil { return err } }`.
A hook is represented by the error it returns; `mk i` is the event emitted
when the i-th hook (counting from `i`) runs. -/
def runFailFast (mk : Nat → LifeEvent) (i : Nat) : List GoErr → GoErr × List LifeEvent
  | [] => (none, [])
  | h :: t =>
    match h with
    | some e => (some e, [mk i])
    | none =>
      let p := runFailFast mk (i + 1) t
      (p.1, mk i :: p.2)

/-- Embedding of the Go best-effort hook loop
`for _, fn := range hooks { if err := fn(); err != nil { gerr = err } }`:
every hook runs, the most recent error is retained in `gerr`. -/
def runBestEffort (mk : Nat → LifeEvent) (i : Nat) (gerr : GoErr) :
    List GoErr → GoErr × List LifeEvent
  | [] => (gerr, [])
  | h :: t =>
    let g := match h with
      | some e => some e
      | none => gerr
    let p := runBestEffort mk (i + 1) g t
    (p.1, mk i :: p.2)

/-- Embedding of `service.Start` (src/unnamed/part_000, lines 384-405):
before-start hooks fail-fast, then the delegate server's `Start`, then
after-start hooks fail-fast.  `sStart` is the delegate server's result. -/
def serviceStart (beforeStart : List GoErr) (sStart : GoErr)
    (afterStart : List GoErr) : GoErr × List LifeEvent :=
  match runFailFast LifeEvent.beforeStart 0 beforeStart with
  | (some e, tr) => (some e, tr)
  | (none, tr) =>
    match sStart with
    | some e => (some e, tr ++ [LifeEvent.serverStart])
    | none =>
      let p := runFailFast LifeEvent.afterStart 0 afterStart
      (p.1, tr ++ [LifeEvent.serverStart] ++ p.2)

/-- Embedding of `service.Stop` (src/unnamed/part_000, lines 407-430):
before-stop hooks best-effort into `gerr`, then the delegate server's `Stop`
unconditionally (its error returned immediately, discarding `gerr`), then
after-stop hooks best-effort, returning the final `gerr`. -/
def serviceStop (beforeStop : List GoErr) (sStop : GoErr)
    (afterStop : List GoErr) : GoErr × List LifeEvent :=
  let p := runBestEffort LifeEvent.beforeStop 0 none beforeStop
  match sStop with
  | some e => (some e, p.2 ++ [LifeEvent.serverStop])
  | none =>
    let q := runBestEffort LifeEvent.afterStop 0 p.1 afterStop
    (q.1, p.2 ++ [LifeEvent.serverStop] ++ q.2)

/-- The last non-nil error of a hook phase, folded left over the results,
starting from `g` (the Go `gerr` accumulator). -/
def lastErr (g : GoErr) (l : List GoErr) : GoErr :=
  l.foldl (fun acc h => match h with | some e => some e | none => acc) g

/-- Embedding of `WrapClient` (src/options.go, lines 261-268).  The Go loop
`for i := len(w); i > 0; i-- { o.Client = w[i-1](o.Client) }` applies the
wrappers at indices n-1, n-2, ..., 0 in that order, which is a left fold over
the reversed wrapper list. -/
def WrapClient {α : Type} (w : List (α → α)) (c : α) : α :=
  w.reverse.foldl (fun acc f => f acc) c

/-- A step of a call path through a wrapped client: entering wrapper k on the
way in, reaching the base client, leaving wrapper k on the way out. -/
inductive CallStep
  | enter (k : Nat)
  | base
  | leave (k : Nat)
  deriving DecidableEq, Repr

/-- A call-order logging stub for the base client: a call path is a function
appending the steps it takes to the log. -/
def logClient : List CallStep → List CallStep :=
  fun log => log ++ [CallStep.base]

/-- A call-order logging stub for wrapper k: log entry, delegate, log exit. -/
def logWrapper (k : Nat) (inner : List CallStep → List CallStep) :
    List CallStep → List CallStep :=
  fun log => inner (log ++ [CallStep.enter k]) ++ [CallStep.leave k]

/-- Sub-options passed to a broker's `Init` (`broker.Registry(r)`). -/
inductive BrokerOpt
  | registry (r : Nat)
  deriving DecidableEq, Repr

/-- A broker instance: an identity plus the log of `Init` sub-options it has
received.  Collaborator `Init` is out of scope, so it is modelled as
recording the sub-option. -/
structure MBroker where
  id : Nat
  inits : List BrokerOpt := []
  deriving DecidableEq, Repr

def MBroker.init (b : MBroker) (o : BrokerOpt) : MBroker :=
  { b with inits := b.inits ++ [o] }

/-- Sub-options passed to a client's `Init` (`client.Broker`,
`client.Registry`, `client.Transport`). -/
inductive ClientOpt
  | broker (b : MBroker)
  | registry (r : Nat)
  | transport (t : Nat)
  deriving DecidableEq, Repr

/-- A client instance with its `Init` log. -/
structure MClient where
  id : Nat
  inits : List ClientOpt := []
  deriving DecidableEq, Repr

def MClient.init (c : MClient) (o : ClientOpt) : MClient :=
  { c with inits := c.inits ++ [o] }

/-- Sub-options passed to a server's `Init` (`server.Broker`,
`server.Registry`, `server.Transport`). -/
inductive ServerOpt
  | broker (b : MBroker)
  | registry (r : Nat)
  | transport (t : Nat)
  deriving DecidableEq, Repr

/-- A server instance with its name and `Init` log. -/
structure MServer where
  id : Nat
  name : String
  inits : List ServerOpt := []
  deriving DecidableEq, Repr

def MServer.init (s : MServer) (o : ServerOpt) : MServer :=
  { s with inits := s.inits ++ [o] }

/-- Sub-options passed to a store's `Init` (`store.Table(name)`). -/
inductive StoreOpt
  | table (name : String)
  deriving DecidableEq, Repr

/-- A store instance with its `Init` log. -/
structure MStore where
  id : Nat
  inits : List StoreOpt := []
  deriving DecidableEq, Repr

def MStore.init (s : MStore) (o : StoreOpt) : MStore :=
  { s with inits := s.inits ++ [o] }

/-- A `cmd.Cmd` instance: only its app name is observable here. -/
structure MCmd where
  appName : String
  deriving DecidableEq, Repr

/-- The `micro.Options` configuration record (src/options.go, lines 24-58).
Every subsystem field is a Go interface value, hence nilable: `Option`.
Hooks are represented by the error each returns, as in the lifecycle model.
Subsystems whose identity alone matters are plain `Nat` ids. -/
structure MOptions where
  Auth : Option Nat
  Broker : Option MBroker
  Cmd : Option MCmd
  Config : Option Nat
  Client : Option MClient
  Server : Option MServer
  Store : Option MStore
  Registry : Option Nat
  Runtime : Option Nat
  Transport : Option Nat
  Profile : Option Nat
  BeforeStart : List GoErr
  BeforeStop : List GoErr
  AfterStart : List GoErr
  AfterStop : List GoErr
  Context : Option Nat
  Signal : Bool
  deriving DecidableEq, Repr

/-- A `micro.Option` mutator: Go mutates `*Options` in place, modelled as a
function from record to record. -/
abbrev ServiceOption := MOptions → MOptions

/-- Default Instance Registry singleton for the broker (a non-nil Go
interface value, `broker.DefaultBroker`). -/
def DefaultBroker : MBroker := ⟨0, []⟩

/-- Default Instance Registry singleton for the client. -/
def DefaultClient : MClient := ⟨0, []⟩

/-- The default server; `server.DefaultName` is "go.micro.server"
(src/unnamed/part_000, line 141). -/
def DefaultServer : MServer := ⟨0, "go.micro.server", []⟩

/-- Default Instance Registry singleton for the store. -/
def DefaultStore : MStore := ⟨0, []⟩

/-- The default cmd; its app name is the collaborator's default, abstracted. -/
def DefaultCmd : MCmd := ⟨""⟩

def DefaultAuth : Nat := 0

def DefaultConfig : Nat := 0

def DefaultRegistry : Nat := 0

def DefaultRuntime : Nat := 0

def DefaultTransport : Nat := 0

def backgroundContext : Nat := 0

/-- The record literal `newOptions` starts from (src/options.go, lines 62-75):
every listed field is filled from the default singletons; `Profile` is NOT in
the literal, so it stays at the Go zero value for an interface — nil. -/
def initialOptions : MOptions :=
  { Auth := some DefaultAuth
    Broker := some DefaultBroker
    Cmd := some DefaultCmd
    Config := some DefaultConfig
    Client := some DefaultClient
    Server := some DefaultServer
    Store := some DefaultStore
    Registry := some DefaultRegistry
    Runtime := some DefaultRuntime
    Transport := some DefaultTransport
    Profile := none
    BeforeStart := []
    BeforeStop := []
    AfterStart := []
    AfterStop := []
    Context := some backgroundContext
    Signal := true }

/-- Embedding of `newOptions` (src/options.go, lines 61-82): defaults, then
each supplied mutator applied in order. -/
def newOptions (opts : List ServiceOption) : MOptions :=
  opts.foldl (fun o f => f o) initialOptions

/-- Embedding of the `Broker` option (src/options.go, lines 85-92): sets the
broker field, then `Init`s client and server with the broker sub-option.  In
Go a nil client or server would panic on `Init`; `Option.map` keeps the model
total, and the theorem instantiates the fields with non-nil values. -/
def Broker (b : MBroker) : ServiceOption := fun o =>
  { o with Broker := some b
           Client := o.Client.map (fun c => c.init (ClientOpt.broker b))
           Server := o.Server.map (fun s => s.init (ServerOpt.broker b)) }

/-- Embedding of the `Registry` option (src/options.go, lines 144-155): sets
the registry field, then `Init`s client, server and additionally the broker
with the registry sub-option. -/
def Registry (r : Nat) : ServiceOption := fun o =>
  { o with Registry := some r
           Client := o.Client.map (fun c => c.init (ClientOpt.registry r))
           Server := o.Server.map (fun s => s.init (ServerOpt.registry r))
           Broker := o.Broker.map (fun b => b.init (BrokerOpt.registry r)) }

/-- Embedding of the `Transport` option (src/options.go, lines 186-193): sets
the transport field, then `Init`s client and server with the transport
sub-option. -/
def Transport (t : Nat) : ServiceOption := fun o =>
  { o with Transport := some t
           Client := o.Client.map (fun c => c.init (ClientOpt.transport t))
           Server := o.Server.map (fun s => s.init (ServerOpt.transport t)) }

/-- One-time side effects of `service.Init` (src/unnamed/part_000,
lines 318-361): loading and initializing each MICRO_PLUGIN entry, the
`Cmd.Init` command-line initialization, and setting the store table to the
service name. -/
inductive InitEffect
  | pluginLoad (name : String)
  | pluginInit (name : String)
  | cmdInit
  | storeTableSet (name : String)
  deriving DecidableEq, Repr

/-- A service instance: its options record and the `sync.Once` guard state. -/
structure MService where
  opts : MOptions
  onceDone : Bool
  deriving Repr

/-- The body of the `once.Do` block of `service.Init` (src/unnamed/part_000,
lines 318-361): split MICRO_PLUGIN on commas and load/init each non-empty
entry; if the cmd app name is empty, set it to the server's name; run
`Cmd.Init` (collaborator flag parsing, recorded as an effect); then `Init` the
store with the app name as table.  In Go a nil `Cmd`/`Server`/`Store` would
panic; `Option.map`/`getD` keep the model total. -/
def onceBlock (pluginEnv : String) (o : MOptions) : MOptions × List InitEffect :=
  let plugins := (pluginEnv.splitOn ",").filter (fun p => p.length != 0)
  let pluginEffects :=
    plugins.flatMap (fun p => [InitEffect.pluginLoad p, InitEffect.pluginInit p])
  let o1 := { o with Cmd := o.Cmd.map (fun (c : MCmd) =>
      if c.appName.length = 0 then
        { c with appName := (o.Server.map MServer.name).getD "" }
      else c) }
  let name := (o1.Cmd.map MCmd.appName).getD ""
  let o2 := { o1 with Store := o1.Store.map (fun (s : MStore) => s.init (StoreOpt.table name)) }
  (o2, pluginEffects ++ [InitEffect.cmdInit, InitEffect.storeTableSet name])

/-- Embedding of `service.Init` (src/unnamed/part_000, lines 312-362): apply
the supplied mutators in order, then run the one-time block only if the
`sync.Once` has not fired yet.  `pluginEnv` is the process's MICRO_PLUGIN
value, read inside the block.  Returns the new state and the one-time effects
observed during this call. -/
def serviceInit (pluginEnv : String) (s : MService)
    (opts : List ServiceOption) : MService × List InitEffect :=
  let o := opts.foldl (fun o f => f o) s.opts
  if s.onceDone then
    ({ opts := o, onceDone := true }, [])
  else
    let p := onceBlock pluginEnv o
    ({ opts := p.1, onceDone := true }, p.2)

/-- The two event sources the `select` in `Run` can wake on. -/
inductive Wake
  | osSignal
  | ctxDone
  deriving DecidableEq, Repr

/-- Observable events of `service.Run`. -/
inductive RunEvent
  | handleRegistered
  | profileStart
  | profileStop
  | startCalled
  | signalNotify
  | woke (w : Wake)
  | stopCalled
  deriving DecidableEq, Repr

/-- Embedding of `service.Run` (src/unnamed/part_000, lines 432-475).
`profile` is the profiler field: `none` models nil, `some r` a profiler whose
`Start` returns `r` (when it errors, `Run` returns that error before the
`Stop` defer is registered).  The signal/context race of the `select` is
embedded as the `wake` parameter — the event that fires first — constrained
in the theorem to the enabled sources.  Hook lists and the delegate server's
results are as in `serviceStart`/`serviceStop`. -/
def serviceRun (profile : Option GoErr) (bs : List GoErr) (sStart : GoErr)
    (as bstop : List GoErr) (sStop : GoErr) (astop : List GoErr)
    (signal : Bool) (wake : Wake) : GoErr × List RunEvent :=
  let reg := [RunEvent.handleRegistered]
  match profile with
  | some (some e) => (some e, reg ++ [RunEvent.profileStart])
  | _ =>
    let profStart : List RunEvent :=
      match profile with
      | some none => [RunEvent.profileStart]
      | _ => []
    let profStop : List RunEvent :=
      match profile with
      | some none => [RunEvent.profileStop]
      | _ => []
    match (serviceStart bs sStart as).1 with
    | some e => (some e, reg ++ profStart ++ [RunEvent.startCalled] ++ profStop)
    | none =>
      let notifyTr : List RunEvent :=
        if signal then [RunEvent.signalNotify] else []
      ((serviceStop bstop sStop astop).1,
       reg ++ profStart ++ [RunEvent.startCalled] ++ notifyTr ++
         [RunEvent.woke wake, RunEvent.stopCalled] ++ profStop)

/-- Request/context metadata: an association list, lookups take the first
match. -/
abbrev Metadata := List (String × String)

/-- First-match lookup of a key. -/
def mdGet : Metadata → String → Option String
  | [], _ => none
  | kv :: t, k => if kv.1 == k then some kv.2 else mdGet t k

/-- Key-presence test. -/
def mdHas (m : Metadata) (k : String) : Bool :=
  (mdGet m k).isSome

/-- Setting a key: remove previous bindings, bind at the front. -/
def mdSet (m : Metadata) (k v : String) : Metadata :=
  (k, v) :: m.filter (fun kv => kv.1 != k)

/-- A Go `context.Context`: the metadata it carries plus an opaque payload
that the wrappers never touch. -/
structure MContext where
  md : Metadata
  payload : Nat
  deriving DecidableEq, Repr

/-- Modelled from the spec: `metadata.MergeContext` — the `metadata` package
of this repository is not among the provided sources.  Per the spec's
merge-no-clobber contract, each patch key is set into the context's metadata
unless it is already present and `overwrite` is false. -/
def MergeContext (ctx : MContext) (patch : Metadata) (overwrite : Bool) :
    MContext :=
  { ctx with
    md := patch.foldl
      (fun m kv =>
        if overwrite || !(mdHas m kv.1) then mdSet m kv.1 kv.2 else m)
      ctx.md }

/-- The reserved header key space (src/util/wrapper/wrapper.go, line 23). -/
def HeaderPrefix : String := "Micro-"

/-- A client as the decorator wrappers see it: `Call`, `Stream` and `Publish`
as functions of the outgoing context, request/message and call options
(opaque `Nat`s). -/
structure ClientIface where
  call : MContext → Nat → Nat → List Nat → GoErr
  stream : MContext → Nat → List Nat → Option Nat × GoErr
  publish : MContext → Nat → List Nat → GoErr

/-- Embedding of `fromServiceWrapper.setHeaders` (src/util/wrapper/wrapper.go,
lines 26-29): merge the captured headers into the context without
overwriting. -/
def setHeaders (headers : Metadata) (ctx : MContext) : MContext :=
  MergeContext ctx headers false

/-- Embedding of `FromService` (src/util/wrapper/wrapper.go, lines 15-54):
wrap a client so that `Call`, `Stream` and `Publish` each first inject the
captured `Micro-From-Service` header into the outgoing context and then
delegate to the inner client with all other arguments unchanged. -/
def FromService (name : String) (c : ClientIface) : ClientIface :=
  let headers : Metadata := [(HeaderPrefix ++ "From-Service", name)]
  { call := fun ctx req rsp opts => c.call (setHeaders headers ctx) req rsp opts
    stream := fun ctx req opts => c.stream (setHeaders headers ctx) req opts
    publish := fun ctx msg opts => c.publish (setHeaders headers ctx) msg opts }

/-- A server request: the fields the server-side wrappers inspect
(`Service()`, `Endpoint()`). -/
structure MRequest where
  service : String
  endpoint : String
  deriving DecidableEq, Repr

/-- Outcome of a Go handler invocation: a normal return carrying the error
value, or a panic unwinding with a value. -/
inductive HOutcome
  | ret (e : GoErr)
  | panicked (v : Nat)
  deriving DecidableEq, Repr

/-- Embedding of `HandlerStats` (src/util/wrapper/wrapper.go, lines 57-70):
`err := h(ctx, req, rsp); stats.Record(err); return err`.  Panic unwinding is
modelled by `HOutcome.panicked`: the function has no `defer`, so a statement
after a panicking call does not execute and no record is emitted on that
path.  The wrapped handler returns the outcome together with the list of
`stats.Record` arguments of this invocation. -/
def HandlerStats (h : MContext → MRequest → Nat → HOutcome) :
    MContext → MRequest → Nat → HOutcome × List GoErr :=
  fun ctx req rsp =>
    match h ctx req rsp with
    | HOutcome.panicked v => (HOutcome.panicked v, [])
    | HOutcome.ret e => (HOutcome.ret e, [e])

/-- A handler that always panics, used to exhibit the missing record. -/
def panickingHandler : MContext → MRequest → Nat → HOutcome :=
  fun _ _ _ => HOutcome.panicked 7

/-- Span types as set by the wrappers. -/
inductive SpanType
  | inbound
  | outbound
  deriving DecidableEq, Repr

/-- A finished span as handed to the tracer: name, type and the metadata
annotations set on it. -/
structure Span where
  name : String
  typ : SpanType
  metadata : Metadata
  deriving DecidableEq, Repr

/-- Observable tracer events of one invocation through `TraceHandler`. -/
inductive TraceEv
  | spanStart (name : String)
  | spanFinish (s : Span)
  deriving DecidableEq, Repr

/-- Embedding of `TraceHandler` (src/util/wrapper/wrapper.go, lines 104-129).
`newCtxOf ctx name` is the context returned by `t.Start(ctx, name)` — the
tracer is a collaborator, abstracted by this function.  Endpoints whose name
starts with "Debug." delegate directly; otherwise a span named
`service.endpoint` is started, the handler runs under the tracer's context,
an "error" annotation is set exactly when the handler errs, and the span is
finished.  The wrapped handler returns the handler's error plus the tracer
events of this invocation. -/
def TraceHandler (newCtxOf : MContext → String → MContext)
    (h : MContext → MRequest → Nat → GoErr) :
    MContext → MRequest → Nat → GoErr × List TraceEv :=
  fun ctx req rsp =>
    if req.endpoint.startsWith "Debug." then
      (h ctx req rsp, [])
    else
      let name := req.service ++ "." ++ req.endpoint
      let newCtx := newCtxOf ctx name
      let err := h newCtx req rsp
      let md : Metadata :=
        match err with
        | some e => [("error", e)]
        | none => []
      (err,
       [TraceEv.spanStart name,
        TraceEv.spanFinish ⟨name, SpanType.inbound, md⟩])

lemma runFailFast_eq (mk : Nat → LifeEvent) :
    ∀ (l : List GoErr) (i : Nat),
      runFailFast mk i l =
        (l.findSome? id,
         (List.range' i (min (l.findIdx Option.isSome + 1) l.length)).map mk) := by
  intro l
  induction l with
  | nil => intro i; simp [runFailFast, List.findSome?]
  | cons h t ih =>
    intro i
    cases h with
    | some e =>
      simp [runFailFast, List.findSome?, List.findIdx_cons]
    | none =>
      simp only [runFailFast, ih (i + 1), List.findSome?, List.findIdx_cons]
      simp only [Option.isSome_none, Bool.false_eq_true, if_false, cond_false]
      have hmin : min (t.findIdx Option.isSome + 1 + 1) (t.length + 1)
          = min (t.findIdx Option.isSome + 1) t.length + 1 :=
        Nat.succ_min_succ _ _
      simp [List.length_cons, hmin, List.range'_succ]

lemma runBestEffort_eq (mk : Nat → LifeEvent) :
    ∀ (l : List GoErr) (i : Nat) (g : GoErr),
      runBestEffort mk i g l = (lastErr g l, (List.range' i l.length).map mk) := by
  intro l
  induction l with
  | nil => intro i g; simp [runBestEffort, lastErr]
  | cons h t ih =>
    intro i g
    cases h with
    | some e => simp [runBestEffort, ih (i + 1), lastErr, List.range'_succ]
    | none => simp [runBestEffort, ih (i + 1), lastErr, List.range'_succ]

lemma findSome?_id_eq_none_iff :
    ∀ l : List GoErr, l.findSome? id = none ↔ l.findIdx Option.isSome = l.length
  | [] => by simp
  | h :: t => by
    cases h with
    | some e => simp [List.findSome?, List.findIdx_cons]
    | none => simp [List.findSome?, List.findIdx_cons, findSome?_id_eq_none_iff t]

lemma serviceStart_eq (bs as : List GoErr) (sStart : GoErr) :
    serviceStart bs sStart as =
      match bs.findSome? id with
      | some e =>
          (some e,
           (List.range (min (bs.findIdx Option.isSome + 1) bs.length)).map
             LifeEvent.beforeStart)
      | none =>
        match sStart with
        | some e =>
            (some e,
             (List.range bs.length).map LifeEvent.beforeStart ++
               [LifeEvent.serverStart])
        | none =>
            (as.findSome? id,
             (List.range bs.length).map LifeEvent.beforeStart ++
               [LifeEvent.serverStart] ++
               (List.range (min (as.findIdx Option.isSome + 1) as.length)).map
                 LifeEvent.afterStart) := by
  have hbs := runFailFast_eq LifeEvent.beforeStart bs 0
  have has := runFailFast_eq LifeEvent.afterStart as 0
  cases h1 : bs.findSome? id with
  | some e =>
    rw [h1] at hbs
    simp [serviceStart, hbs, List.range_eq_range']
  | none =>
    rw [h1] at hbs
    have hb2 : min (bs.findIdx Option.isSome + 1) bs.length = bs.length := by
      have := (findSome?_id_eq_none_iff bs).mp h1
      omega
    cases sStart with
    | some e => simp [serviceStart, hbs, hb2, List.range_eq_range']
    | none =>
      cases h2 : as.findSome? id with
      | some e =>
        rw [h2] at has
        simp [serviceStart, hbs, has, hb2, List.range_eq_range']
      | none =>
        rw [h2] at has
        simp [serviceStart, hbs, has, hb2, List.range_eq_range']

lemma serviceStop_eq (bs as : List GoErr) (sStop : GoErr) :
    serviceStop bs sStop as =
      match sStop with
      | some e =>
          (some e,
           (List.range bs.length).map LifeEvent.beforeStop ++
             [LifeEvent.serverStop])
      | none =>
          (lastErr none (bs ++ as),
           (List.range bs.length).map LifeEvent.beforeStop ++
             [LifeEvent.serverStop] ++
             (List.range as.length).map LifeEvent.afterStop) := by
  cases sStop with
  | some e => simp [serviceStop, runBestEffort_eq, List.range_eq_range']
  | none =>
    simp [serviceStop, runBestEffort_eq, List.range_eq_range', lastErr,
      List.foldl_append]

/-- C1: `Start` runs the before-start hooks sequentially and fail-fast — on the
first failing hook it returns that exact error, the delegate server's `Start`
is never invoked and no after-start hook runs; when all before-start hooks and
the server `Start` succeed, the after-start hooks run sequentially fail-fast
and `Start` returns the first error among them (no rollback), or `nil`. -/
theorem c1_start_fail_fast_contract (bs as : List GoErr) (sStart : GoErr) :
    serviceStart bs sStart as =
      (match bs.findSome? id with
       | some e =>
           (some e,
            (List.range (min (bs.findIdx Option.isSome + 1) bs.length)).map
              LifeEvent.beforeStart)
       | none =>
         match sStart with
         | some e =>
             (some e,
              (List.range bs.length).map LifeEvent.beforeStart ++
                [LifeEvent.serverStart])
         | none =>
             (as.findSome? id,
              (List.range bs.length).map LifeEvent.beforeStart ++
                [LifeEvent.serverStart] ++
                (List.range (min (as.findIdx Option.isSome + 1) as.length)).map
                  LifeEvent.afterStart)) ∧
    (LifeEvent.serverStart ∈ (serviceStart bs sStart as).2 ↔
      bs.findSome? id = none) ∧
    (∀ i, LifeEvent.afterStart i ∈ (serviceStart bs sStart as).2 ↔
      bs.findSome? id = none ∧ sStart = none ∧
        i < min (as.findIdx Option.isSome + 1) as.length) := by
  refine ⟨serviceStart_eq bs as sStart, ?_, ?_⟩
  · rw [serviceStart_eq]
    cases h1 : bs.findSome? id with
    | some e => simp
    | none => cases sStart <;> simp
  · intro i
    rw [serviceStart_eq]
    cases h1 : bs.findSome? id with
    | some e => simp
    | none => cases sStart <;> simp

/-- C2: `Stop` runs every before-stop hook (continue-on-error, most recent
error retained), then invokes the delegate server's `Stop` unconditionally; a
server `Stop` error is returned immediately and no after-stop hook runs;
otherwise every after-stop hook runs under the same policy and `Stop` returns
the last non-nil error across both hook phases, or `nil`. -/
theorem c2_stop_best_effort_contract (bs as : List GoErr) (sStop : GoErr) :
    serviceStop bs sStop as =
      (match sStop with
       | some e =>
           (some e,
            (List.range bs.length).map LifeEvent.beforeStop ++
              [LifeEvent.serverStop])
       | none =>
           (lastErr none (bs ++ as),
            (List.range bs.length).map LifeEvent.beforeStop ++
              [LifeEvent.serverStop] ++
              (List.range as.length).map LifeEvent.afterStop)) ∧
    (∀ i, LifeEvent.beforeStop i ∈ (serviceStop bs sStop as).2 ↔
      i < bs.length) ∧
    LifeEvent.serverStop ∈ (serviceStop bs sStop as).2 ∧
    (∀ i, LifeEvent.afterStop i ∈ (serviceStop bs sStop as).2 ↔
      sStop = none ∧ i < as.length) := by
  refine ⟨serviceStop_eq bs as sStop, ?_, ?_, ?_⟩
  · intro i
    rw [serviceStop_eq]
    cases sStop <;> simp
  · rw [serviceStop_eq]
    cases sStop <;> simp
  · intro i
    rw [serviceStop_eq]
    cases sStop <;> simp

lemma foldr_logWrapper (ks : List Nat) (log : List CallStep) :
    (ks.map logWrapper).foldr (fun f acc => f acc) logClient log =
      log ++ ks.map CallStep.enter ++ [CallStep.base] ++
        ks.reverse.map CallStep.leave := by
  induction ks generalizing log with
  | nil => simp [logClient]
  | cons k t ih => simp [logWrapper, ih]

/-- C3: the client built by `WrapClient [w0, ..., wn-1]` on base client `C`
equals `w0 (w1 (... (wn-1 C)))` — wrappers applied from the last index to the
first, first-declared wrapper outermost — and, on call-order logging stubs, an
invocation visits `w0, w1, ..., wn-1, C` on the way in and
`C, wn-1, ..., w1, w0` on the way out. -/
theorem c3_wrapClient_onion_order :
    (∀ (α : Type) (w : List (α → α)) (c : α),
      WrapClient w c = w.foldr (fun f acc => f acc) c) ∧
    (∀ n : Nat,
      WrapClient ((List.range n).map logWrapper) logClient [] =
        (List.range n).map CallStep.enter ++ [CallStep.base] ++
          ((List.range n).reverse.map CallStep.leave)) := by
  have hfold : ∀ (α : Type) (w : List (α → α)) (c : α),
      WrapClient w c = w.foldr (fun f acc => f acc) c := by
    intro α w c
    rw [WrapClient, List.foldl_reverse]
  refine ⟨hfold, ?_⟩
  intro n
  rw [hfold, foldr_logWrapper]
  simp

/-- C4: the Broker-swap mutator sets the broker field and `Init`s client and
server with the broker sub-option; the Transport-swap mutator sets the
transport field and `Init`s client and server with the transport sub-option;
the Registry-swap mutator sets the registry field and `Init`s client, server
and additionally the broker with the registry sub-option. -/
theorem c4_swap_mutators_reinit_collaborators (o : MOptions) (c : MClient)
    (sv : MServer) (br b : MBroker) (r t : Nat) :
    Broker b { o with Client := some c, Server := some sv, Broker := some br } =
      { o with Broker := some b
               Client := some (c.init (ClientOpt.broker b))
               Server := some (sv.init (ServerOpt.broker b)) } ∧
    Transport t { o with Client := some c, Server := some sv, Broker := some br } =
      { o with Broker := some br
               Transport := some t
               Client := some (c.init (ClientOpt.transport t))
               Server := some (sv.init (ServerOpt.transport t)) } ∧
    Registry r { o with Client := some c, Server := some sv, Broker := some br } =
      { o with Registry := some r
               Client := some (c.init (ClientOpt.registry r))
               Server := some (sv.init (ServerOpt.registry r))
               Broker := some (br.init (BrokerOpt.registry r)) } :=
  ⟨rfl, rfl, rfl⟩

/-- C7 counterexample: after `newOptions` with no mutators, the profiler field
is nil — the Go record literal never sets `Profile`, so the claim that every
subsystem reference field, the profiler included, is non-null fails. -/
theorem c7_counterexample_profile_nil : (newOptions []).Profile = none := rfl

/-- C7 as amended: `newOptions` starts from the default record and folds the
supplied mutators over it in order; in the default record every subsystem
field except the profiler is non-null (filled from the default singletons
before any mutator runs), the hook lists are empty, signal handling is on —
but the profiler field is nil (`Run` guards it with a nil check). -/
theorem c7_amended_defaults_filled (opts : List ServiceOption) :
    newOptions opts = opts.foldl (fun o f => f o) initialOptions ∧
    initialOptions.Client = some DefaultClient ∧
    initialOptions.Server = some DefaultServer ∧
    initialOptions.Broker = some DefaultBroker ∧
    initialOptions.Registry = some DefaultRegistry ∧
    initialOptions.Transport = some DefaultTransport ∧
    initialOptions.Store = some DefaultStore ∧
    initialOptions.Runtime = some DefaultRuntime ∧
    initialOptions.Auth = some DefaultAuth ∧
    initialOptions.Config = some DefaultConfig ∧
    initialOptions.Cmd = some DefaultCmd ∧
    initialOptions.Context = some backgroundContext ∧
    initialOptions.Signal = true ∧
    initialOptions.BeforeStart = [] ∧
    initialOptions.AfterStart = [] ∧
    initialOptions.BeforeStop = [] ∧
    initialOptions.AfterStop = [] ∧
    initialOptions.Profile = none :=
  ⟨rfl, rfl, rfl, rfl, rfl, rfl, rfl, rfl, rfl, rfl, rfl, rfl, rfl, rfl, rfl,
   rfl, rfl, rfl⟩

lemma onceBlock_count_cmdInit (env : String) (o : MOptions) :
    (onceBlock env o).2.count InitEffect.cmdInit = 1 := by
  have hmem : InitEffect.cmdInit ∉
      (((env.splitOn ",").filter (fun p => p.length != 0)).flatMap
        (fun p => [InitEffect.pluginLoad p, InitEffect.pluginInit p])) := by
    simp [List.mem_flatMap]
  simp [onceBlock, List.count_append, List.count_eq_zero.mpr hmem, List.count_cons]

/-- C5: the one-time side effects of `Init` run exactly once across two calls
— the first call applies its mutators in order and only then runs the
one-time block; the second call applies its mutators but produces no one-time
effect. -/
theorem c5_init_one_time_guard (env : String) (s : MService)
    (h : s.onceDone = false) (os1 os2 : List ServiceOption) :
    (serviceInit env s os1).1.opts =
      (onceBlock env (os1.foldl (fun o f => f o) s.opts)).1 ∧
    (serviceInit env s os1).2 =
      (onceBlock env (os1.foldl (fun o f => f o) s.opts)).2 ∧
    (serviceInit env s os1).1.onceDone = true ∧
    (serviceInit env (serviceInit env s os1).1 os2).2 = [] ∧
    (serviceInit env (serviceInit env s os1).1 os2).1.opts =
      os2.foldl (fun o f => f o) (serviceInit env s os1).1.opts ∧
    ((serviceInit env s os1).2 ++
        (serviceInit env (serviceInit env s os1).1 os2).2).count
      InitEffect.cmdInit = 1 := by
  have h1 : serviceInit env s os1 =
      ({ opts := (onceBlock env (os1.foldl (fun o f => f o) s.opts)).1,
         onceDone := true },
       (onceBlock env (os1.foldl (fun o f => f o) s.opts)).2) := by
    simp [serviceInit, h]
  refine ⟨?_, ?_, ?_, ?_, ?_, ?_⟩
  · rw [h1]
  · rw [h1]
  · rw [h1]
  · rw [h1]; simp [serviceInit]
  · rw [h1]; simp [serviceInit]
  · rw [h1]; simp [serviceInit, onceBlock_count_cmdInit]

/-- Witness for C5 at a concrete service, plugin environment and mutator
lists. -/
theorem c5_init_one_time_guard_witness :
    ((serviceInit "p1" ⟨initialOptions, false⟩ []).2 ++
        (serviceInit "p1" (serviceInit "p1" ⟨initialOptions, false⟩ []).1
          [Transport 5]).2).count
      InitEffect.cmdInit = 1 :=
  (c5_init_one_time_guard "p1" ⟨initialOptions, false⟩ rfl []
    [Transport 5]).2.2.2.2.2

/-- C6: when the profiler (if any) starts cleanly and `Start` succeeds inside
`Run`, `Run` blocks until one of the two wake events — an OS signal (possible
only with signal handling enabled) or the context completing — then invokes
`Stop` exactly once and returns `Stop`'s result. -/
theorem c6_run_waits_then_stops_once (profile : Option GoErr)
    (bs as bstop astop : List GoErr) (sStart sStop : GoErr) (signal : Bool)
    (wake : Wake) (hp : profile = none ∨ profile = some none)
    (hstart : (serviceStart bs sStart as).1 = none)
    (hwake : wake = Wake.osSignal → signal = true) :
    (serviceRun profile bs sStart as bstop sStop astop signal wake).1 =
      (serviceStop bstop sStop astop).1 ∧
    (serviceRun profile bs sStart as bstop sStop astop signal wake).2.count
      RunEvent.stopCalled = 1 ∧
    RunEvent.woke wake ∈
      (serviceRun profile bs sStart as bstop sStop astop signal wake).2 ∧
    (RunEvent.signalNotify ∈
        (serviceRun profile bs sStart as bstop sStop astop signal wake).2 ↔
      signal = true) := by
  have hsig : signal = true ∨ signal = false ∧ wake = Wake.ctxDone := by
    cases signal with
    | true => exact Or.inl rfl
    | false =>
      refine Or.inr ⟨rfl, ?_⟩
      cases wake with
      | osSignal => exact absurd (hwake rfl) (by simp)
      | ctxDone => rfl
  rcases hp with hp | hp <;> subst hp <;>
    rcases hsig with hs | ⟨hs, hw⟩ <;> subst hs <;>
      simp [serviceRun, hstart, List.count_append, List.count_cons]

/-- Witness for C6: no profiler, empty hook lists, signal handling disabled,
context cancelled — `Stop` runs exactly once. -/
theorem c6_run_waits_then_stops_once_witness :
    (serviceRun none [] none [] [] none [] false Wake.ctxDone).2.count
      RunEvent.stopCalled = 1 :=
  (c6_run_waits_then_stops_once none [] [] [] [] none none false Wake.ctxDone
    (Or.inl rfl) rfl (by simp)).2.1

lemma mdGet_filter_ne (k k' : String) (hk : k ≠ k') :
    ∀ m : Metadata, mdGet (m.filter (fun kv => kv.1 != k)) k' = mdGet m k'
  | [] => rfl
  | kv :: t => by
    by_cases h : kv.1 = k
    · have hne : (kv.1 == k') = false := by
        rw [h]
        simp [hk]
      have hfil : List.filter (fun kv => kv.1 != k) (kv :: t) =
          List.filter (fun kv => kv.1 != k) t := by
        simp [List.filter_cons, h]
      rw [hfil, mdGet_filter_ne k k' hk t]
      simp [mdGet, hne]
    · have hfil : List.filter (fun kv => kv.1 != k) (kv :: t) =
          kv :: List.filter (fun kv => kv.1 != k) t := by
        simp [List.filter_cons, h]
      rw [hfil]
      simp [mdGet, mdGet_filter_ne k k' hk t]

lemma mdGet_mdSet (m : Metadata) (k v k' : String) :
    mdGet (mdSet m k v) k' = if k = k' then some v else mdGet m k' := by
  by_cases h : k = k'
  · simp [mdSet, mdGet, h]
  · simp [mdSet, mdGet, h, mdGet_filter_ne k k' h]

lemma mdGet_setHeaders (hk name : String) (ctx : MContext) (k : String) :
    mdGet (setHeaders [(hk, name)] ctx).md k =
      match mdGet ctx.md k with
      | some v => some v
      | none => mdGet [(hk, name)] k := by
  rcases hv : mdGet ctx.md hk with _ | v
  · have hb : mdHas ctx.md hk = false := by simp [mdHas, hv]
    have hmd : (setHeaders [(hk, name)] ctx).md = mdSet ctx.md hk name := by
      simp [setHeaders, MergeContext, List.foldl, hb]
    rw [hmd, mdGet_mdSet]
    by_cases h : hk = k
    · subst h
      rw [hv]
      simp [mdGet]
    · have hne : (hk == k) = false := by simp [h]
      rw [if_neg h]
      rcases hkv : mdGet ctx.md k with _ | w
      · simp [mdGet, hne]
      · simp
  · have hb : mdHas ctx.md hk = true := by simp [mdHas, hv]
    have hmd : (setHeaders [(hk, name)] ctx).md = ctx.md := by
      simp [setHeaders, MergeContext, List.foldl, hb]
    rw [hmd]
    rcases hkv : mdGet ctx.md k with _ | w
    · have h : hk ≠ k := by
        intro he
        rw [he, hkv] at hv
        cases hv
      have hne : (hk == k) = false := by simp [h]
      simp [mdGet, hne]
    · simp

/-- C9: every call through the `FromService` wrapper — uniformly for `Call`,
`Stream` and `Publish` — merges the captured header set into the outgoing
context without overwriting keys already present, leaves the rest of the
context and all other arguments unchanged, and delegates to the inner
client. -/
theorem c9_fromService_merge_no_clobber (name : String) (c : ClientIface)
    (ctx : MContext) (req rsp msg : Nat) (opts : List Nat) :
    (FromService name c).call ctx req rsp opts =
      c.call (setHeaders [(HeaderPrefix ++ "From-Service", name)] ctx)
        req rsp opts ∧
    (FromService name c).stream ctx req opts =
      c.stream (setHeaders [(HeaderPrefix ++ "From-Service", name)] ctx)
        req opts ∧
    (FromService name c).publish ctx msg opts =
      c.publish (setHeaders [(HeaderPrefix ++ "From-Service", name)] ctx)
        msg opts ∧
    (setHeaders [(HeaderPrefix ++ "From-Service", name)] ctx).payload =
      ctx.payload ∧
    (∀ k, mdGet (setHeaders [(HeaderPrefix ++ "From-Service", name)] ctx).md k =
      match mdGet ctx.md k with
      | some v => some v
      | none => mdGet [(HeaderPrefix ++ "From-Service", name)] k) :=
  ⟨rfl, rfl, rfl, rfl, fun k => mdGet_setHeaders _ name ctx k⟩

/-- C8 counterexample: when the inner handler panics, the `HandlerStats`
wrapper records nothing — the panic propagates past `stats.Record`, so the
claim that exactly one outcome is recorded on every exit path, panics
included, fails. -/
theorem c8_counterexample_panic_skips_record :
    (HandlerStats panickingHandler ⟨[], 0⟩ ⟨"Svc", "Ep"⟩ 0).1 =
        HOutcome.panicked 7 ∧
    (HandlerStats panickingHandler ⟨[], 0⟩ ⟨"Svc", "Ep"⟩ 0).2 = [] :=
  ⟨rfl, rfl⟩

/-- C8 as amended: the `HandlerStats` wrapper passes the inner handler's
outcome through unaltered (errors returned verbatim, panics propagated), and
records exactly one outcome — the handler's error value — precisely when the
inner handler returns normally; on a panic exit no record is made. -/
theorem c8_amended_record_on_normal_return
    (h : MContext → MRequest → Nat → HOutcome) (ctx : MContext)
    (req : MRequest) (rsp : Nat) :
    (HandlerStats h ctx req rsp).1 = h ctx req rsp ∧
    (HandlerStats h ctx req rsp).2 =
      (match h ctx req rsp with
       | HOutcome.ret e => [e]
       | HOutcome.panicked _ => []) ∧
    ((HandlerStats h ctx req rsp).2.length = 1 ↔
      ∃ e, h ctx req rsp = HOutcome.ret e) := by
  rcases hh : h ctx req rsp with e | v <;> simp [HandlerStats, hh]

/-- C10: `TraceHandler` delegates directly (no span started or finished) for
endpoints beginning with "Debug."; for every other endpoint it starts one
span, runs the handler under the tracer's context, finishes the span with an
"error" annotation exactly when the handler's error is non-nil, and returns
the handler's error value unchanged. -/
theorem c10_traceHandler_debug_bypass_and_span
    (newCtxOf : MContext → String → MContext)
    (h : MContext → MRequest → Nat → GoErr) (ctx : MContext) (req : MRequest)
    (rsp : Nat) :
    TraceHandler newCtxOf h ctx req rsp =
      (if req.endpoint.startsWith "Debug." then (h ctx req rsp, [])
       else
         (h (newCtxOf ctx (req.service ++ "." ++ req.endpoint)) req rsp,
          [TraceEv.spanStart (req.service ++ "." ++ req.endpoint),
           TraceEv.spanFinish
             ⟨req.service ++ "." ++ req.endpoint, SpanType.inbound,
              match h (newCtxOf ctx (req.service ++ "." ++ req.endpoint)) req
                  rsp with
              | some e => [("error", e)]
              | none => []⟩])) ∧
    (TraceHandler newCtxOf h ctx req rsp).1 =
      h (if req.endpoint.startsWith "Debug." then ctx
         else newCtxOf ctx (req.service ++ "." ++ req.endpoint)) req rsp ∧
    ((TraceHandler newCtxOf h ctx req rsp).2 = [] ↔
      req.endpoint.startsWith "Debug." = true) := by
  by_cases hd : req.endpoint.startsWith "Debug." <;>
    simp [TraceHandler, hd]

end GoMicro
